import Mathlib

/-
Shallow embedding of the integrity-monitoring engine of app.py
(File-Integrity-Monitor): content hashing results, directory scanning,
baseline persistence (hash_db.json), the audit log (security.log),
integrity checking and log analysis.  The filesystem and the clock are
explicit parameters of each operation; the sha256 result that
calculate_hash would produce for an entry is part of the modelled
directory entry (none when the file is unreadable).
-/

/-- One value of the per-file dictionaries built by scan_files and stored in
hash_db.json: the sha256 hexdigest, the byte size, and the formatted
modification-time string. -/
structure FileRecord where
  hash : String
  size : Nat
  modified : String
deriving DecidableEq

/-- A Python dict keyed by file name, kept in insertion order. -/
abbrev HashDict := List (String × FileRecord)

/-- Dict lookup: the binding of the key (keys are unique in a Python dict, so
the first binding is the binding). -/
def dictLookup (k : String) : HashDict → Option FileRecord
  | [] => none
  | (k2, v) :: rest => if k2 = k then some v else dictLookup k rest

/-- Python membership test on a dict. -/
def dictContains (k : String) (d : HashDict) : Bool :=
  (dictLookup k d).isSome

/-- The keys of a dict, in order. -/
def dictKeys (d : HashDict) : List String :=
  d.map Prod.fst

/-- Kind of a filesystem object once symlinks are resolved. -/
inductive FileType where
  | regular
  | directory
  | device
deriving DecidableEq

/-- One direct entry of the monitored directory.  resolved is the type of the
object the name designates after following symlinks (none for a broken
link); hashResult is what calculate_hash returns for the path: the sha256
hexdigest, or none when opening or reading raises. -/
structure DirEntry where
  name : String
  isSymlink : Bool
  resolved : Option FileType
  hashResult : Option String
  size : Nat
  mtime : String
deriving DecidableEq

/-- State of the monitored SECURE_FOLDER directory. -/
structure Filesystem where
  secureFolderExists : Bool
  entries : List DirEntry
deriving DecidableEq

/-- os.path.isfile follows symlinks: it is true exactly when the path
resolves to a regular file, so it is also true for a symlink whose target
is a regular file. -/
def os_path_isfile (e : DirEntry) : Bool :=
  match e.resolved with
  | some FileType.regular => true
  | _ => false

/-- The body of the scan_files loop for one directory entry: entries passing
os.path.isfile whose hash computation succeeds become snapshot records. -/
def scanEntry (e : DirEntry) : Option (String × FileRecord) :=
  if os_path_isfile e then
    match e.hashResult with
    | some h => some (e.name, { hash := h, size := e.size, modified := e.mtime })
    | none => none
  else none

/-- scan_files: empty when the folder does not exist, otherwise one record per
direct entry that is (after symlink resolution) a regular file and was
hashed successfully. -/
def scan_files (fs : Filesystem) : HashDict :=
  if fs.secureFolderExists then fs.entries.filterMap scanEntry else []

/-- On-disk state of hash_db.json as load_hash_db distinguishes it: absent,
present but not parseable as JSON (the except branch), or a parsed dict. -/
inductive BaselineDisk where
  | missing
  | corrupt
  | valid (db : HashDict)
deriving DecidableEq

/-- load_hash_db: the parsed dict, or the empty dict when the file is missing
or json.load raises. -/
def load_hash_db : BaselineDisk → HashDict
  | BaselineDisk.missing => []
  | BaselineDisk.corrupt => []
  | BaselineDisk.valid db => db

/-- save_hash_db: the on-disk state after json.dump completes. -/
def save_hash_db (db : HashDict) : BaselineDisk :=
  BaselineDisk.valid db

/-- The sequence of on-disk states hash_db.json passes through during
save_hash_db.  The file is opened with mode "w", which truncates it before
json.dump writes anything, so the first observable state is an empty
(hence unparseable) file; only when the dump completes does the file hold
the new database. -/
def save_hash_db_states (db : HashDict) : List BaselineDisk :=
  [BaselineDisk.corrupt, BaselineDisk.valid db]

/-- The line log_activity formats: a bracketed timestamp, the level, the
message, and — only when the filename argument is non-empty (Python string
truthiness) — a File suffix. -/
def log_line (now level message filename : String) : String :=
  let entry := "[" ++ now ++ "] " ++ level ++ ": " ++ message
  if filename = "" then entry
  else entry ++ " (File: \"" ++ filename ++ "\")"

/-- The durable state of the process: hash_db.json and the ordered lines of
security.log. -/
structure SystemState where
  baselineDisk : BaselineDisk
  log : List String
deriving DecidableEq

/-- log_activity: append one formatted line to the log file and return it. -/
def log_activity (st : SystemState) (now level message filename : String) :
    SystemState × String :=
  let entry := log_line now level message filename
  ({ st with log := st.log ++ [entry] }, entry)

/-- A call of log_activity that omits the filename argument: Python fills in
the declared default, the empty string. -/
def log_activity_nofile (st : SystemState) (now level message : String) :
    SystemState × String :=
  log_activity st now level message ""

/-- How check_integrity classifies one currently-present file. -/
inductive FileClass where
  | safe
  | modified
  | new
deriving DecidableEq

/-- The classification check_integrity applies to a current record given the
baseline record stored under the same name (none when the name is not in
the baseline): digest comparison only. -/
def classOfRecord (base : Option FileRecord) (info : FileRecord) : FileClass :=
  match base with
  | some prev => if prev.hash = info.hash then FileClass.safe else FileClass.modified
  | none => FileClass.new

/-- The results dict built by check_integrity. -/
structure CheckResults where
  safe : List String
  modified : List String
  deleted : List String
  new : List String
deriving DecidableEq

/-- First loop of check_integrity: walk the current files, classify each
against the baseline dict, and record the corresponding log line. -/
def classifyFiles (hash_db : HashDict) (now : String) :
    HashDict → CheckResults × List String
  | [] => (⟨[], [], [], []⟩, [])
  | (filename, info) :: rest =>
    let r := classifyFiles hash_db now rest
    match dictLookup filename hash_db with
    | some prev =>
      if prev.hash = info.hash then
        ({ r.1 with safe := filename :: r.1.safe },
          log_line now "INFO" "File verified OK" filename :: r.2)
      else
        ({ r.1 with modified := filename :: r.1.modified },
          log_line now "WARNING" "File integrity failed! Hash mismatch detected" filename :: r.2)
    | none =>
      ({ r.1 with new := filename :: r.1.new },
        log_line now "ALERT" "Unknown file detected (new file added)" filename :: r.2)

/-- The log line the first loop of check_integrity writes for one current
file, expressed through its classification. -/
def logFor (hash_db : HashDict) (now : String) (p : String × FileRecord) : String :=
  match classOfRecord (dictLookup p.1 hash_db) p.2 with
  | FileClass.safe => log_line now "INFO" "File verified OK" p.1
  | FileClass.modified => log_line now "WARNING" "File integrity failed! Hash mismatch detected" p.1
  | FileClass.new => log_line now "ALERT" "Unknown file detected (new file added)" p.1

/-- check_integrity: load the baseline, scan the directory, classify every
current file, mark baseline names that are no longer present as deleted,
write the corresponding log lines, and save the current snapshot as the
new baseline. -/
def check_integrity (st : SystemState) (fs : Filesystem) (now : String) :
    CheckResults × SystemState :=
  let hash_db := load_hash_db st.baselineDisk
  let current_files := scan_files fs
  let checked := classifyFiles hash_db now current_files
  let deleted := (dictKeys hash_db).filter (fun n => !(dictContains n current_files))
  let deletedLogs := deleted.map (fun n => log_line now "ALERT" "File has been deleted" n)
  ({ checked.1 with deleted := deleted },
    { baselineDisk := save_hash_db current_files,
      log := st.log ++ checked.2 ++ deletedLogs })

/-- create_baseline: scan, save unconditionally, log one INFO line, return
the number of files. -/
def create_baseline (st : SystemState) (fs : Filesystem) (now : String) :
    SystemState × Nat :=
  let current_files := scan_files fs
  let st1 := { st with baselineDisk := save_hash_db current_files }
  let st2 := (log_activity_nofile st1 now "INFO"
    ("Baseline created for " ++ toString current_files.length ++ " files")).1
  (st2, current_files.length)

/-- reset_logs on its success path: truncate the log file to nothing, then
log one INFO line recording the reset, and return True. -/
def reset_logs (st : SystemState) (now : String) : SystemState × Bool :=
  let st1 := { st with log := [] }
  let st2 := (log_activity_nofile st1 now "INFO" "Log system has been reset").1
  (st2, true)

/-- Contiguous-sublist test on character lists, the semantics of the Python
substring operator. -/
def containsSub (pat : List Char) : List Char → Bool
  | [] => pat.isEmpty
  | c :: rest => pat.isPrefixOf (c :: rest) || containsSub pat rest

/-- The Python expression sub in s on strings. -/
def pyIn (sub s : String) : Bool :=
  containsSub sub.toList s.toList

/-- The expression log.split(chr 93)[0].replace(chr 91, empty) applied to a
log line: the part of the line before the first closing bracket, with
every opening bracket removed. -/
def timestampOf (log : String) : String :=
  ((log.toList.takeWhile (fun c => c ≠ ']')).filter (fun c => c ≠ '[')).asString

/-- The stats dict parse_logs builds. -/
structure LogStats where
  total_logs : Nat
  info : Nat
  warning : Nat
  alert : Nat
  last_anomaly : Option String
  recent_logs : List String
deriving DecidableEq

/-- The stats dict as initialised at the top of parse_logs. -/
def initStats : LogStats :=
  { total_logs := 0, info := 0, warning := 0, alert := 0,
    last_anomaly := none, recent_logs := [] }

/-- The body of the parse_logs loop for one line: first-match on the INFO,
WARNING, ALERT substrings, in that order; the two anomalous branches also
overwrite the last-anomaly timestamp. -/
def parseLine (stats : LogStats) (log : String) : LogStats :=
  if pyIn "INFO" log then
    { stats with info := stats.info + 1 }
  else if pyIn "WARNING" log then
    { stats with warning := stats.warning + 1, last_anomaly := some (timestampOf log) }
  else if pyIn "ALERT" log then
    { stats with alert := stats.alert + 1, last_anomaly := some (timestampOf log) }
  else stats

/-- parse_logs: none models an absent log file (the os.path.exists guard);
otherwise the input is the list of lines readlines returns.  The total is
set before the loop, the loop folds over the lines, and the ten most
recent lines are kept newest first. -/
def parse_logs : Option (List String) → LogStats
  | none => initStats
  | some logs =>
    let s := logs.foldl parseLine { initStats with total_logs := logs.length }
    { s with recent_logs := (logs.drop (logs.length - 10)).reverse }

/-- A line the parse_logs loop counts as INFO. -/
def isInfoLine (l : String) : Bool :=
  pyIn "INFO" l

/-- A line the parse_logs loop counts as WARNING: the INFO branch was not
taken first. -/
def isWarningLine (l : String) : Bool :=
  !pyIn "INFO" l && pyIn "WARNING" l

/-- A line the parse_logs loop counts as ALERT: neither earlier branch was
taken. -/
def isAlertLine (l : String) : Bool :=
  !pyIn "INFO" l && !pyIn "WARNING" l && pyIn "ALERT" l

/-- A line that updates the last-anomaly timestamp: counted WARNING or ALERT. -/
def isAnomalyLine (l : String) : Bool :=
  isWarningLine l || isAlertLine l

/-- Left-biased choice on options: the overwrite discipline of a fold that
keeps the most recent value. -/
def optOr {α : Type} : Option α → Option α → Option α
  | some a, _ => some a
  | none, b => b

/-- The timestamp of the last anomalous line of the log, if any. -/
def lastAnomalyOf (logs : List String) : Option String :=
  ((logs.filter isAnomalyLine).getLast?).map timestampOf

/-- A current entry the first loop of check_integrity puts into safe. -/
def isSafeEntry (hash_db : HashDict) (p : String × FileRecord) : Bool :=
  match classOfRecord (dictLookup p.1 hash_db) p.2 with
  | FileClass.safe => true
  | _ => false

/-- A current entry the first loop of check_integrity puts into modified. -/
def isModifiedEntry (hash_db : HashDict) (p : String × FileRecord) : Bool :=
  match classOfRecord (dictLookup p.1 hash_db) p.2 with
  | FileClass.modified => true
  | _ => false

/-- A current entry the first loop of check_integrity puts into new. -/
def isNewEntry (hash_db : HashDict) (p : String × FileRecord) : Bool :=
  match classOfRecord (dictLookup p.1 hash_db) p.2 with
  | FileClass.new => true
  | _ => false

/-- The full correctness statement for one check_integrity call: the four
result lists are characterised by baseline/current lookups and digest
comparison, they are pairwise disjoint, together they cover exactly the
names of the current snapshot and of the baseline, and each classified
name has its log line appended. -/
def CheckPartition (st : SystemState) (fs : Filesystem) (now : String) : Prop :=
  (∀ n, n ∈ (check_integrity st fs now).1.safe ↔
      ∃ c, dictLookup n (scan_files fs) = some c ∧
        ∃ b, dictLookup n (load_hash_db st.baselineDisk) = some b ∧ b.hash = c.hash) ∧
  (∀ n, n ∈ (check_integrity st fs now).1.modified ↔
      ∃ c, dictLookup n (scan_files fs) = some c ∧
        ∃ b, dictLookup n (load_hash_db st.baselineDisk) = some b ∧ ¬b.hash = c.hash) ∧
  (∀ n, n ∈ (check_integrity st fs now).1.new ↔
      (∃ c, dictLookup n (scan_files fs) = some c) ∧
        dictLookup n (load_hash_db st.baselineDisk) = none) ∧
  (∀ n, n ∈ (check_integrity st fs now).1.deleted ↔
      n ∈ dictKeys (load_hash_db st.baselineDisk) ∧
        dictLookup n (scan_files fs) = none) ∧
  (∀ n, n ∈ (check_integrity st fs now).1.safe → n ∉ (check_integrity st fs now).1.modified) ∧
  (∀ n, n ∈ (check_integrity st fs now).1.safe → n ∉ (check_integrity st fs now).1.new) ∧
  (∀ n, n ∈ (check_integrity st fs now).1.safe → n ∉ (check_integrity st fs now).1.deleted) ∧
  (∀ n, n ∈ (check_integrity st fs now).1.modified → n ∉ (check_integrity st fs now).1.new) ∧
  (∀ n, n ∈ (check_integrity st fs now).1.modified → n ∉ (check_integrity st fs now).1.deleted) ∧
  (∀ n, n ∈ (check_integrity st fs now).1.new → n ∉ (check_integrity st fs now).1.deleted) ∧
  (∀ n, (n ∈ (check_integrity st fs now).1.safe ∨ n ∈ (check_integrity st fs now).1.modified ∨
      n ∈ (check_integrity st fs now).1.new ∨ n ∈ (check_integrity st fs now).1.deleted) ↔
      (n ∈ dictKeys (scan_files fs) ∨ n ∈ dictKeys (load_hash_db st.baselineDisk))) ∧
  (∀ n, n ∈ (check_integrity st fs now).1.safe →
      log_line now "INFO" "File verified OK" n ∈ (check_integrity st fs now).2.log) ∧
  (∀ n, n ∈ (check_integrity st fs now).1.modified →
      log_line now "WARNING" "File integrity failed! Hash mismatch detected" n
        ∈ (check_integrity st fs now).2.log) ∧
  (∀ n, n ∈ (check_integrity st fs now).1.new →
      log_line now "ALERT" "Unknown file detected (new file added)" n
        ∈ (check_integrity st fs now).2.log) ∧
  (∀ n, n ∈ (check_integrity st fs now).1.deleted →
      log_line now "ALERT" "File has been deleted" n ∈ (check_integrity st fs now).2.log)

/-! Helper lemmas about dict lookup. -/

theorem mem_dictKeys_iff {d : HashDict} {n : String} :
    n ∈ dictKeys d ↔ ∃ v, (n, v) ∈ d := by
  constructor
  · intro h
    obtain ⟨⟨a, b⟩, hp, rfl⟩ := List.mem_map.mp h
    exact ⟨b, hp⟩
  · rintro ⟨v, hv⟩
    exact List.mem_map.mpr ⟨(n, v), hv, rfl⟩

theorem dictLookup_isSome_iff {d : HashDict} {n : String} :
    (dictLookup n d).isSome = true ↔ n ∈ dictKeys d := by
  induction d with
  | nil => simp [dictLookup, dictKeys]
  | cons p rest ih =>
    obtain ⟨k, w⟩ := p
    have hd : dictLookup n ((k, w) :: rest) = if k = n then some w else dictLookup n rest := rfl
    have hkeys : dictKeys ((k, w) :: rest) = k :: dictKeys rest := rfl
    by_cases hk : k = n
    · subst hk
      rw [hd, if_pos rfl, hkeys]
      simp
    · rw [hd, if_neg hk, hkeys, List.mem_cons, ih]
      constructor
      · intro h
        exact Or.inr h
      · rintro (h | h)
        · exact absurd h.symm hk
        · exact h

theorem dictLookup_eq_none_iff {d : HashDict} {n : String} :
    dictLookup n d = none ↔ n ∉ dictKeys d := by
  rw [← dictLookup_isSome_iff]
  cases dictLookup n d <;> simp

theorem dictLookup_eq_some_of_mem {d : HashDict} {n : String} {v : FileRecord}
    (hnd : (dictKeys d).Nodup) (hm : (n, v) ∈ d) : dictLookup n d = some v := by
  induction d with
  | nil => cases hm
  | cons p rest ih =>
    obtain ⟨k, w⟩ := p
    simp only [dictKeys, List.map_cons, List.nodup_cons] at hnd
    rcases List.mem_cons.mp hm with h | h
    · cases h
      simp [dictLookup]
    · have hk : k ≠ n := by
        intro he
        subst he
        exact hnd.1 (List.mem_map.mpr ⟨(k, v), h, rfl⟩)
      simp only [dictLookup, if_neg hk]
      exact ih hnd.2 h

theorem mem_of_dictLookup_eq_some {d : HashDict} {n : String} {v : FileRecord}
    (h : dictLookup n d = some v) : (n, v) ∈ d := by
  induction d with
  | nil => cases h
  | cons p rest ih =>
    obtain ⟨k, w⟩ := p
    have hd : dictLookup n ((k, w) :: rest) = if k = n then some w else dictLookup n rest := rfl
    by_cases hk : k = n
    · subst hk
      rw [hd, if_pos rfl] at h
      injection h with h
      subst h
      exact List.mem_cons_self _ _
    · rw [hd, if_neg hk] at h
      exact List.mem_cons_of_mem _ (ih h)

/-! The first loop of check_integrity, characterised. -/

theorem classifyFiles_eq (db : HashDict) (now : String) (cur : HashDict) :
    classifyFiles db now cur =
      (⟨(cur.filter (isSafeEntry db)).map Prod.fst,
        (cur.filter (isModifiedEntry db)).map Prod.fst,
        [],
        (cur.filter (isNewEntry db)).map Prod.fst⟩,
        cur.map (logFor db now)) := by
  induction cur with
  | nil => rfl
  | cons p rest ih =>
    obtain ⟨filename, info⟩ := p
    simp only [classifyFiles, ih, List.filter_cons, List.map_cons]
    cases hdb : dictLookup filename db with
    | none =>
      simp [isSafeEntry, isModifiedEntry, isNewEntry, logFor, classOfRecord, hdb]
    | some prev =>
      by_cases hh : prev.hash = info.hash
      · simp [isSafeEntry, isModifiedEntry, isNewEntry, logFor, classOfRecord, hdb, hh]
      · simp [isSafeEntry, isModifiedEntry, isNewEntry, logFor, classOfRecord, hdb, hh]

theorem check_integrity_eq (st : SystemState) (fs : Filesystem) (now : String) :
    check_integrity st fs now =
      (⟨((scan_files fs).filter (isSafeEntry (load_hash_db st.baselineDisk))).map Prod.fst,
        ((scan_files fs).filter (isModifiedEntry (load_hash_db st.baselineDisk))).map Prod.fst,
        (dictKeys (load_hash_db st.baselineDisk)).filter
          (fun n => !(dictContains n (scan_files fs))),
        ((scan_files fs).filter (isNewEntry (load_hash_db st.baselineDisk))).map Prod.fst⟩,
        { baselineDisk := save_hash_db (scan_files fs),
          log := st.log ++ (scan_files fs).map (logFor (load_hash_db st.baselineDisk) now)
            ++ ((dictKeys (load_hash_db st.baselineDisk)).filter
                (fun n => !(dictContains n (scan_files fs)))).map
              (fun n => log_line now "ALERT" "File has been deleted" n) }) := by
  simp only [check_integrity, classifyFiles_eq]

/-! Characterisation of the three entry classifications. -/

theorem isSafeEntry_iff {db : HashDict} {p : String × FileRecord} :
    isSafeEntry db p = true ↔
      ∃ b, dictLookup p.1 db = some b ∧ b.hash = p.2.hash := by
  cases hdb : dictLookup p.1 db with
  | none => simp [isSafeEntry, classOfRecord, hdb]
  | some prev =>
    by_cases hh : prev.hash = p.2.hash
    · simp [isSafeEntry, classOfRecord, hdb, hh]
    · simp [isSafeEntry, classOfRecord, hdb, hh]

theorem isModifiedEntry_iff {db : HashDict} {p : String × FileRecord} :
    isModifiedEntry db p = true ↔
      ∃ b, dictLookup p.1 db = some b ∧ ¬b.hash = p.2.hash := by
  cases hdb : dictLookup p.1 db with
  | none => simp [isModifiedEntry, classOfRecord, hdb]
  | some prev =>
    by_cases hh : prev.hash = p.2.hash
    · simp [isModifiedEntry, classOfRecord, hdb, hh]
    · simp [isModifiedEntry, classOfRecord, hdb, hh]

theorem isNewEntry_iff {db : HashDict} {p : String × FileRecord} :
    isNewEntry db p = true ↔ dictLookup p.1 db = none := by
  cases hdb : dictLookup p.1 db with
  | none => simp [isNewEntry, classOfRecord, hdb]
  | some prev =>
    by_cases hh : prev.hash = p.2.hash
    · simp [isNewEntry, classOfRecord, hdb, hh]
    · simp [isNewEntry, classOfRecord, hdb, hh]

/-! Membership in the classified name lists. -/

theorem mem_safeNames_iff {db cur : HashDict} {n : String}
    (hnd : (dictKeys cur).Nodup) :
    n ∈ (cur.filter (isSafeEntry db)).map Prod.fst ↔
      ∃ c, dictLookup n cur = some c ∧
        ∃ b, dictLookup n db = some b ∧ b.hash = c.hash := by
  constructor
  · intro h
    obtain ⟨⟨m, c⟩, hp, rfl⟩ := List.mem_map.mp h
    obtain ⟨hmem, hcls⟩ := List.mem_filter.mp hp
    exact ⟨c, dictLookup_eq_some_of_mem hnd hmem, isSafeEntry_iff.mp hcls⟩
  · rintro ⟨c, hcur, hb⟩
    refine List.mem_map.mpr ⟨(n, c), List.mem_filter.mpr
      ⟨mem_of_dictLookup_eq_some hcur, isSafeEntry_iff.mpr hb⟩, rfl⟩

theorem mem_modifiedNames_iff {db cur : HashDict} {n : String}
    (hnd : (dictKeys cur).Nodup) :
    n ∈ (cur.filter (isModifiedEntry db)).map Prod.fst ↔
      ∃ c, dictLookup n cur = some c ∧
        ∃ b, dictLookup n db = some b ∧ ¬b.hash = c.hash := by
  constructor
  · intro h
    obtain ⟨⟨m, c⟩, hp, rfl⟩ := List.mem_map.mp h
    obtain ⟨hmem, hcls⟩ := List.mem_filter.mp hp
    exact ⟨c, dictLookup_eq_some_of_mem hnd hmem, isModifiedEntry_iff.mp hcls⟩
  · rintro ⟨c, hcur, hb⟩
    refine List.mem_map.mpr ⟨(n, c), List.mem_filter.mpr
      ⟨mem_of_dictLookup_eq_some hcur, isModifiedEntry_iff.mpr hb⟩, rfl⟩

theorem mem_newNames_iff {db cur : HashDict} {n : String}
    (hnd : (dictKeys cur).Nodup) :
    n ∈ (cur.filter (isNewEntry db)).map Prod.fst ↔
      (∃ c, dictLookup n cur = some c) ∧ dictLookup n db = none := by
  constructor
  · intro h
    obtain ⟨⟨m, c⟩, hp, rfl⟩ := List.mem_map.mp h
    obtain ⟨hmem, hcls⟩ := List.mem_filter.mp hp
    exact ⟨⟨c, dictLookup_eq_some_of_mem hnd hmem⟩, isNewEntry_iff.mp hcls⟩
  · rintro ⟨⟨c, hcur⟩, hdb⟩
    refine List.mem_map.mpr ⟨(n, c), List.mem_filter.mpr
      ⟨mem_of_dictLookup_eq_some hcur, isNewEntry_iff.mpr hdb⟩, rfl⟩

theorem mem_deletedNames_iff {db cur : HashDict} {n : String} :
    n ∈ (dictKeys db).filter (fun m => !(dictContains m cur)) ↔
      n ∈ dictKeys db ∧ dictLookup n cur = none := by
  have hopt : ((dictLookup n cur).isSome = false) ↔ dictLookup n cur = none := by
    cases dictLookup n cur <;> simp
  simp only [List.mem_filter, Bool.not_eq_eq_eq_not, Bool.not_true, dictContains, hopt]

/-- C1: check_integrity returns four pairwise-disjoint name lists partitioning
the union of current and baseline names, with digest-equality deciding
safe versus modified, and the matching log entries appended. -/
theorem check_integrity_partitions (st : SystemState) (fs : Filesystem) (now : String)
    (hnd : (dictKeys (scan_files fs)).Nodup) : CheckPartition st fs now := by
  unfold CheckPartition
  have hres := check_integrity_eq st fs now
  set db := load_hash_db st.baselineDisk with hdb0
  set cur := scan_files fs with hcur0
  have hsafe : ∀ n, n ∈ (check_integrity st fs now).1.safe ↔
      ∃ c, dictLookup n cur = some c ∧
        ∃ b, dictLookup n db = some b ∧ b.hash = c.hash := by
    intro n
    rw [hres]
    exact mem_safeNames_iff hnd
  have hmod : ∀ n, n ∈ (check_integrity st fs now).1.modified ↔
      ∃ c, dictLookup n cur = some c ∧
        ∃ b, dictLookup n db = some b ∧ ¬b.hash = c.hash := by
    intro n
    rw [hres]
    exact mem_modifiedNames_iff hnd
  have hnew : ∀ n, n ∈ (check_integrity st fs now).1.new ↔
      (∃ c, dictLookup n cur = some c) ∧ dictLookup n db = none := by
    intro n
    rw [hres]
    exact mem_newNames_iff hnd
  have hdel : ∀ n, n ∈ (check_integrity st fs now).1.deleted ↔
      n ∈ dictKeys db ∧ dictLookup n cur = none := by
    intro n
    rw [hres]
    exact mem_deletedNames_iff
  have hlog : (check_integrity st fs now).2.log =
      st.log ++ cur.map (logFor db now)
        ++ ((dictKeys db).filter (fun n => !(dictContains n cur))).map
          (fun n => log_line now "ALERT" "File has been deleted" n) := by
    rw [hres]
  refine ⟨hsafe, hmod, hnew, hdel, ?_, ?_, ?_, ?_, ?_, ?_, ?_, ?_, ?_, ?_, ?_⟩
  · intro n hs hm
    obtain ⟨c, hc, b, hb, he⟩ := (hsafe n).mp hs
    obtain ⟨c2, hc2, b2, hb2, hne⟩ := (hmod n).mp hm
    obtain rfl : c = c2 := Option.some.inj (hc.symm.trans hc2)
    obtain rfl : b = b2 := Option.some.inj (hb.symm.trans hb2)
    exact hne he
  · intro n hs hn
    obtain ⟨c, hc, b, hb, he⟩ := (hsafe n).mp hs
    obtain ⟨_, hnone⟩ := (hnew n).mp hn
    rw [hb] at hnone
    cases hnone
  · intro n hs hd
    obtain ⟨c, hc, b, hb, he⟩ := (hsafe n).mp hs
    obtain ⟨_, hnone⟩ := (hdel n).mp hd
    rw [hc] at hnone
    cases hnone
  · intro n hm hn
    obtain ⟨c, hc, b, hb, hne⟩ := (hmod n).mp hm
    obtain ⟨_, hnone⟩ := (hnew n).mp hn
    rw [hb] at hnone
    cases hnone
  · intro n hm hd
    obtain ⟨c, hc, b, hb, hne⟩ := (hmod n).mp hm
    obtain ⟨_, hnone⟩ := (hdel n).mp hd
    rw [hc] at hnone
    cases hnone
  · intro n hn hd
    obtain ⟨⟨c, hc⟩, _⟩ := (hnew n).mp hn
    obtain ⟨_, hnone⟩ := (hdel n).mp hd
    rw [hc] at hnone
    cases hnone
  · intro n
    have hfromcur : ∀ c, dictLookup n cur = some c →
        (n ∈ (check_integrity st fs now).1.safe ∨
          n ∈ (check_integrity st fs now).1.modified ∨
          n ∈ (check_integrity st fs now).1.new ∨
          n ∈ (check_integrity st fs now).1.deleted) := by
      intro c hc
      cases hb : dictLookup n db with
      | none =>
        exact Or.inr (Or.inr (Or.inl ((hnew n).mpr ⟨⟨c, hc⟩, hb⟩)))
      | some b =>
        by_cases hh : b.hash = c.hash
        · exact Or.inl ((hsafe n).mpr ⟨c, hc, b, hb, hh⟩)
        · exact Or.inr (Or.inl ((hmod n).mpr ⟨c, hc, b, hb, hh⟩))
    constructor
    · rintro (h | h | h | h)
      · obtain ⟨c, hc, _⟩ := (hsafe n).mp h
        exact Or.inl (dictLookup_isSome_iff.mp (by rw [hc]; rfl))
      · obtain ⟨c, hc, _⟩ := (hmod n).mp h
        exact Or.inl (dictLookup_isSome_iff.mp (by rw [hc]; rfl))
      · obtain ⟨⟨c, hc⟩, _⟩ := (hnew n).mp h
        exact Or.inl (dictLookup_isSome_iff.mp (by rw [hc]; rfl))
      · exact Or.inr ((hdel n).mp h).1
    · rintro (h | h)
      · obtain ⟨c, hc⟩ := Option.isSome_iff_exists.mp (dictLookup_isSome_iff.mpr h)
        exact hfromcur c hc
      · cases hc : dictLookup n cur with
        | none =>
          exact Or.inr (Or.inr (Or.inr ((hdel n).mpr ⟨h, hc⟩)))
        | some c =>
          exact hfromcur c hc
  · intro n hs
    obtain ⟨c, hc, b, hb, he⟩ := (hsafe n).mp hs
    have hlf : logFor db now (n, c) = log_line now "INFO" "File verified OK" n := by
      simp [logFor, classOfRecord, hb, he]
    rw [hlog]
    exact List.mem_append.mpr (Or.inl (List.mem_append.mpr (Or.inr
      (List.mem_map.mpr ⟨(n, c), mem_of_dictLookup_eq_some hc, hlf⟩))))
  · intro n hm
    obtain ⟨c, hc, b, hb, hne⟩ := (hmod n).mp hm
    have hlf : logFor db now (n, c) =
        log_line now "WARNING" "File integrity failed! Hash mismatch detected" n := by
      simp [logFor, classOfRecord, hb, hne]
    rw [hlog]
    exact List.mem_append.mpr (Or.inl (List.mem_append.mpr (Or.inr
      (List.mem_map.mpr ⟨(n, c), mem_of_dictLookup_eq_some hc, hlf⟩))))
  · intro n hn
    obtain ⟨⟨c, hc⟩, hnone⟩ := (hnew n).mp hn
    have hlf : logFor db now (n, c) =
        log_line now "ALERT" "Unknown file detected (new file added)" n := by
      simp [logFor, classOfRecord, hnone]
    rw [hlog]
    exact List.mem_append.mpr (Or.inl (List.mem_append.mpr (Or.inr
      (List.mem_map.mpr ⟨(n, c), mem_of_dictLookup_eq_some hc, hlf⟩))))
  · intro n hd
    have hd2 : n ∈ (dictKeys db).filter (fun m => !(dictContains m cur)) := by
      have := (hdel n).mp hd
      exact mem_deletedNames_iff.mpr this
    rw [hlog]
    exact List.mem_append.mpr (Or.inr (List.mem_map.mpr ⟨n, hd2, rfl⟩))

theorem check_integrity_partitions_witness :
    (dictKeys (scan_files ⟨true,
        [⟨"a.txt", false, some FileType.regular, some "h1", 3, "2024-01-01 00:00:00"⟩]⟩)).Nodup ∧
      CheckPartition
        ⟨BaselineDisk.valid [("b.txt", ⟨"h2", 5, "2024-01-01 00:00:00"⟩)], []⟩
        ⟨true, [⟨"a.txt", false, some FileType.regular, some "h1", 3, "2024-01-01 00:00:00"⟩]⟩
        "2024-01-02 00:00:00" :=
  ⟨by decide, check_integrity_partitions _ _ _ (by decide)⟩

/-- C2: a file present in both snapshot and baseline is classified by digest
equality alone: equal digests put it in safe and never in modified, even
when size or modification time differ, and the classification function is
invariant under changes to both metadata fields. -/
theorem digest_only_classification (st : SystemState) (fs : Filesystem) (now n : String)
    (info prev : FileRecord)
    (hnd : (dictKeys (scan_files fs)).Nodup)
    (hcur : dictLookup n (scan_files fs) = some info)
    (hdbl : dictLookup n (load_hash_db st.baselineDisk) = some prev)
    (hhash : prev.hash = info.hash) :
    n ∈ (check_integrity st fs now).1.safe ∧
      n ∉ (check_integrity st fs now).1.modified ∧
      ∀ (a b : FileRecord) (s1 : Nat) (m1 : String) (s2 : Nat) (m2 : String),
        classOfRecord (some { a with size := s1, modified := m1 })
            { b with size := s2, modified := m2 } =
          classOfRecord (some a) b := by
  have hs : n ∈ (check_integrity st fs now).1.safe := by
    rw [check_integrity_eq]
    exact (mem_safeNames_iff hnd).mpr ⟨info, hcur, prev, hdbl, hhash⟩
  refine ⟨hs, ?_, ?_⟩
  · intro hm
    rw [check_integrity_eq] at hm
    obtain ⟨c, hc, b, hb, hne⟩ := (mem_modifiedNames_iff hnd).mp hm
    obtain rfl := Option.some.inj (hcur.symm.trans hc)
    obtain rfl := Option.some.inj (hdbl.symm.trans hb)
    exact hne hhash
  · intro a b s1 m1 s2 m2
    rfl

theorem digest_only_classification_witness :
    "doc.txt" ∈ (check_integrity
        ⟨BaselineDisk.valid [("doc.txt", ⟨"h1", 99, "2020-01-01 00:00:00"⟩)], []⟩
        ⟨true, [⟨"doc.txt", false, some FileType.regular, some "h1", 7, "2024-03-01 10:00:00"⟩]⟩
        "t").1.safe ∧
      "doc.txt" ∉ (check_integrity
        ⟨BaselineDisk.valid [("doc.txt", ⟨"h1", 99, "2020-01-01 00:00:00"⟩)], []⟩
        ⟨true, [⟨"doc.txt", false, some FileType.regular, some "h1", 7, "2024-03-01 10:00:00"⟩]⟩
        "t").1.modified ∧
      ∀ (a b : FileRecord) (s1 : Nat) (m1 : String) (s2 : Nat) (m2 : String),
        classOfRecord (some { a with size := s1, modified := m1 })
            { b with size := s2, modified := m2 } =
          classOfRecord (some a) b :=
  digest_only_classification
    ⟨BaselineDisk.valid [("doc.txt", ⟨"h1", 99, "2020-01-01 00:00:00"⟩)], []⟩
    ⟨true, [⟨"doc.txt", false, some FileType.regular, some "h1", 7, "2024-03-01 10:00:00"⟩]⟩
    "t" "doc.txt" ⟨"h1", 7, "2024-03-01 10:00:00"⟩ ⟨"h1", 99, "2020-01-01 00:00:00"⟩
    (by decide) (by decide) (by decide) rfl

/-- C3: every completed check_integrity call persists the scanned snapshot as
the new baseline, so loading the baseline store afterwards returns exactly
the snapshot that was classified during the call. -/
theorem check_advances_baseline (st : SystemState) (fs : Filesystem) (now : String) :
    load_hash_db (check_integrity st fs now).2.baselineDisk = scan_files fs := rfl

/-! The substring test and its behaviour under concatenation. -/

theorem containsSub_iff (pat l : List Char) :
    containsSub pat l = true ↔ pat <:+: l := by
  induction l with
  | nil =>
    simp only [containsSub, List.isEmpty_iff, List.infix_nil]
  | cons c rest ih =>
    simp only [containsSub, Bool.or_eq_true, List.isPrefixOf_iff_prefix, ih,
      List.infix_cons_iff]

theorem pyIn_toList (sub s : String) :
    pyIn sub s = true ↔ sub.toList <:+: s.toList :=
  containsSub_iff sub.toList s.toList

theorem toList_append (s t : String) : (s ++ t).toList = s.toList ++ t.toList :=
  String.data_append s t

theorem pyIn_append_right (s t sub : String) (h : pyIn sub t = true) :
    pyIn sub (s ++ t) = true := by
  rw [pyIn_toList] at h ⊢
  rw [toList_append]
  exact h.trans ⟨s.toList, [], by simp⟩

theorem pyIn_append_left (s t sub : String) (h : pyIn sub s = true) :
    pyIn sub (s ++ t) = true := by
  rw [pyIn_toList] at h ⊢
  rw [toList_append]
  exact h.trans ⟨[], t.toList, by simp⟩

/-! Option choice helpers for the last-anomaly fold. -/

theorem optOr_assoc {α : Type} (a b c : Option α) :
    optOr (optOr a b) c = optOr a (optOr b c) := by
  cases a <;> rfl

theorem optOr_none {α : Type} (a : Option α) : optOr a none = a := by
  cases a <;> rfl

theorem getLast?_cons_eq_optOr {α : Type} (a : α) (xs : List α) :
    (a :: xs).getLast? = optOr xs.getLast? (some a) := by
  induction xs generalizing a with
  | nil => rfl
  | cons b bs ih =>
    calc (a :: b :: bs).getLast? = (b :: bs).getLast? := List.getLast?_cons_cons
      _ = optOr bs.getLast? (some b) := ih b
      _ = optOr bs.getLast? (optOr (some b) (some a)) := rfl
      _ = optOr (optOr bs.getLast? (some b)) (some a) := (optOr_assoc _ _ _).symm
      _ = optOr (b :: bs).getLast? (some a) := by rw [ih b]

theorem lastAnomalyOf_cons (l : String) (ls : List String) :
    lastAnomalyOf (l :: ls) =
      optOr (lastAnomalyOf ls)
        (if isAnomalyLine l then some (timestampOf l) else none) := by
  unfold lastAnomalyOf
  rw [List.filter_cons]
  by_cases h : isAnomalyLine l = true
  · rw [if_pos h, if_pos h, getLast?_cons_eq_optOr]
    cases hx : (ls.filter isAnomalyLine).getLast? <;> simp [optOr]
  · rw [if_neg h, if_neg h, optOr_none]

/-! Field-by-field behaviour of one parse_logs loop iteration. -/

theorem parseLine_fields (s : LogStats) (l : String) :
    (parseLine s l).total_logs = s.total_logs ∧
      (parseLine s l).recent_logs = s.recent_logs ∧
      (parseLine s l).info = s.info + (if isInfoLine l then 1 else 0) ∧
      (parseLine s l).warning = s.warning + (if isWarningLine l then 1 else 0) ∧
      (parseLine s l).alert = s.alert + (if isAlertLine l then 1 else 0) ∧
      (parseLine s l).last_anomaly =
        optOr (if isAnomalyLine l then some (timestampOf l) else none)
          s.last_anomaly := by
  by_cases h1 : pyIn "INFO" l = true
  · simp [parseLine, isInfoLine, isWarningLine, isAlertLine, isAnomalyLine, h1, optOr]
  · by_cases h2 : pyIn "WARNING" l = true
    · simp [parseLine, isInfoLine, isWarningLine, isAlertLine, isAnomalyLine, h1, h2, optOr]
    · by_cases h3 : pyIn "ALERT" l = true
      · simp [parseLine, isInfoLine, isWarningLine, isAlertLine, isAnomalyLine, h1, h2, h3, optOr]
      · simp [parseLine, isInfoLine, isWarningLine, isAlertLine, isAnomalyLine, h1, h2, h3, optOr]

theorem foldl_parseLine (logs : List String) : ∀ s : LogStats,
    (logs.foldl parseLine s).total_logs = s.total_logs ∧
      (logs.foldl parseLine s).recent_logs = s.recent_logs ∧
      (logs.foldl parseLine s).info = s.info + logs.countP isInfoLine ∧
      (logs.foldl parseLine s).warning = s.warning + logs.countP isWarningLine ∧
      (logs.foldl parseLine s).alert = s.alert + logs.countP isAlertLine ∧
      (logs.foldl parseLine s).last_anomaly =
        optOr (lastAnomalyOf logs) s.last_anomaly := by
  induction logs with
  | nil =>
    intro s
    simp [lastAnomalyOf, optOr]
  | cons l ls ih =>
    intro s
    rw [List.foldl_cons]
    obtain ⟨ht, hr, hi, hw, ha, hl⟩ := ih (parseLine s l)
    obtain ⟨pt, pr, pi, pw, pa, pl⟩ := parseLine_fields s l
    refine ⟨ht.trans pt, hr.trans pr, ?_, ?_, ?_, ?_⟩
    · rw [hi, pi, List.countP_cons]
      cases hif : isInfoLine l <;> (simp [hif]; try omega)
    · rw [hw, pw, List.countP_cons]
      cases hif : isWarningLine l <;> (simp [hif]; try omega)
    · rw [ha, pa, List.countP_cons]
      cases hif : isAlertLine l <;> (simp [hif]; try omega)
    · rw [hl, pl, ← optOr_assoc, lastAnomalyOf_cons]

theorem parse_logs_counts (logs : List String) :
    (parse_logs (some logs)).total_logs = logs.length ∧
      (parse_logs (some logs)).info = logs.countP isInfoLine ∧
      (parse_logs (some logs)).warning = logs.countP isWarningLine ∧
      (parse_logs (some logs)).alert = logs.countP isAlertLine ∧
      (parse_logs (some logs)).last_anomaly = lastAnomalyOf logs := by
  obtain ⟨ht, hr, hi, hw, ha, hl⟩ :=
    foldl_parseLine logs { initStats with total_logs := logs.length }
  exact ⟨ht, hi.trans (Nat.zero_add _), hw.trans (Nat.zero_add _),
    ha.trans (Nat.zero_add _), hl.trans (optOr_none _)⟩

theorem count_levels_le_length (logs : List String) :
    logs.countP isInfoLine + logs.countP isWarningLine + logs.countP isAlertLine
      ≤ logs.length := by
  induction logs with
  | nil => simp
  | cons l ls ih =>
    simp only [List.countP_cons, List.length_cons]
    cases h1 : pyIn "INFO" l <;> cases h2 : pyIn "WARNING" l <;>
      cases h3 : pyIn "ALERT" l <;>
        (simp [isInfoLine, isWarningLine, isAlertLine, h1, h2, h3]; omega)

/-- C7: parse_logs classifies every line into at most one level, by
first-match precedence INFO, WARNING, ALERT: the info count is the number
of lines containing INFO anywhere, the warning count counts lines with
WARNING but no INFO, the alert count counts lines with ALERT but neither
INFO nor WARNING, the three per-line classifications are mutually
exclusive, and the three counts together never exceed the line count. -/
theorem parse_logs_precedence (logs : List String) :
    (parse_logs (some logs)).info = logs.countP (fun l => pyIn "INFO" l) ∧
      (parse_logs (some logs)).warning =
        logs.countP (fun l => !pyIn "INFO" l && pyIn "WARNING" l) ∧
      (parse_logs (some logs)).alert =
        logs.countP (fun l => !pyIn "INFO" l && !pyIn "WARNING" l && pyIn "ALERT" l) ∧
      (∀ l, (isInfoLine l && isWarningLine l) = false) ∧
      (∀ l, (isInfoLine l && isAlertLine l) = false) ∧
      (∀ l, (isWarningLine l && isAlertLine l) = false) ∧
      (parse_logs (some logs)).info + (parse_logs (some logs)).warning
          + (parse_logs (some logs)).alert ≤ (parse_logs (some logs)).total_logs := by
  obtain ⟨ht, hi, hw, ha, _⟩ := parse_logs_counts logs
  refine ⟨hi, hw, ha, ?_, ?_, ?_, ?_⟩
  · intro l
    cases h1 : pyIn "INFO" l <;> cases h2 : pyIn "WARNING" l <;>
      simp [isInfoLine, isWarningLine, h1, h2]
  · intro l
    cases h1 : pyIn "INFO" l <;> cases h3 : pyIn "ALERT" l <;>
      simp [isInfoLine, isAlertLine, h1, h3]
  · intro l
    cases h1 : pyIn "INFO" l <;> cases h2 : pyIn "WARNING" l <;>
      simp [isWarningLine, isAlertLine, h1, h2]
  · rw [ht, hi, hw, ha]
    exact count_levels_le_length logs

/-- C8: the last-anomaly timestamp reported by parse_logs is the timestamp
portion (the text before the first closing bracket, brackets stripped) of
the last line counted WARNING or ALERT, in file order; it is absent when no
such line exists, and an absent or empty log yields zero counts and no
anomaly timestamp. -/
theorem parse_logs_last_anomaly (logs : List String) :
    (parse_logs (some logs)).last_anomaly =
        ((logs.filter isAnomalyLine).getLast?).map timestampOf ∧
      parse_logs none = initStats ∧
      (parse_logs none).last_anomaly = none ∧
      (parse_logs none).info = 0 ∧
      (parse_logs none).warning = 0 ∧
      (parse_logs none).alert = 0 ∧
      (parse_logs none).total_logs = 0 ∧
      (parse_logs (some [])).last_anomaly = none ∧
      (parse_logs (some [])).info = 0 ∧
      (parse_logs (some [])).warning = 0 ∧
      (parse_logs (some [])).alert = 0 ∧
      (parse_logs (some [])).total_logs = 0 := by
  refine ⟨?_, rfl, rfl, rfl, rfl, rfl, rfl, rfl, rfl, rfl, rfl, rfl⟩
  exact (parse_logs_counts logs).2.2.2.2

/-- C9: reset_logs empties the log and immediately appends one INFO entry
recording the reset, so a following parse_logs sees exactly one line,
counted INFO, with zero WARNING and ALERT counts, and reset_logs reports
success. -/
theorem reset_then_parse (st : SystemState) (now : String) :
    (parse_logs (some ((reset_logs st now).1.log))).total_logs = 1 ∧
      (parse_logs (some ((reset_logs st now).1.log))).info = 1 ∧
      (parse_logs (some ((reset_logs st now).1.log))).warning = 0 ∧
      (parse_logs (some ((reset_logs st now).1.log))).alert = 0 ∧
      (reset_logs st now).2 = true := by
  have hline : (reset_logs st now).1.log =
      [log_line now "INFO" "Log system has been reset" ""] := rfl
  have h1 : pyIn "INFO" "INFO" = true := by decide
  have h2 : pyIn "INFO" ((("[" ++ now) ++ "] ") ++ "INFO") = true :=
    pyIn_append_right _ _ _ h1
  have h3 : pyIn "INFO" (((("[" ++ now) ++ "] ") ++ "INFO") ++ ": ") = true :=
    pyIn_append_left _ _ _ h2
  have h4 : pyIn "INFO"
      ((((("[" ++ now) ++ "] ") ++ "INFO") ++ ": ")
        ++ "Log system has been reset") = true :=
    pyIn_append_left _ _ _ h3
  have hinfo : pyIn "INFO" (log_line now "INFO" "Log system has been reset" "") = true := by
    unfold log_line
    simpa using h4
  rw [hline]
  obtain ⟨ht, hi, hw, ha, _⟩ :=
    parse_logs_counts [log_line now "INFO" "Log system has been reset" ""]
  refine ⟨ht.trans rfl, hi.trans ?_, hw.trans ?_, ha.trans ?_, rfl⟩
  · simp [isInfoLine, hinfo]
  · simp [isWarningLine, hinfo]
  · simp [isAlertLine, hinfo]

/-- C10: log_activity called with the empty-string filename (its declared
default) produces exactly the line without the File suffix, identical to a
call that omits the argument, and the suffix appears exactly when a
non-empty filename is supplied. -/
theorem log_activity_empty_filename (st : SystemState) (now level message fname : String)
    (h : ¬fname = "") :
    (log_activity_nofile st now level message).2 = log_line now level message "" ∧
      log_activity_nofile st now level message = log_activity st now level message "" ∧
      log_line now level message "" = "[" ++ now ++ "] " ++ level ++ ": " ++ message ∧
      log_line now level message fname =
        "[" ++ now ++ "] " ++ level ++ ": " ++ message
          ++ " (File: \"" ++ fname ++ "\")" ∧
      (log_activity st now level message fname).1.log =
        st.log ++ [log_line now level message fname] := by
  refine ⟨rfl, rfl, rfl, ?_, rfl⟩
  simp [log_line, h]

theorem log_activity_empty_filename_witness :
    (log_activity_nofile ⟨BaselineDisk.missing, []⟩ "2024-01-01 00:00:00" "INFO" "msg").2 =
        log_line "2024-01-01 00:00:00" "INFO" "msg" "" ∧
      log_activity_nofile ⟨BaselineDisk.missing, []⟩ "2024-01-01 00:00:00" "INFO" "msg" =
        log_activity ⟨BaselineDisk.missing, []⟩ "2024-01-01 00:00:00" "INFO" "msg" "" ∧
      log_line "2024-01-01 00:00:00" "INFO" "msg" "" =
        "[" ++ "2024-01-01 00:00:00" ++ "] " ++ "INFO" ++ ": " ++ "msg" ∧
      log_line "2024-01-01 00:00:00" "INFO" "msg" "a.txt" =
        "[" ++ "2024-01-01 00:00:00" ++ "] " ++ "INFO" ++ ": " ++ "msg"
          ++ " (File: \"" ++ "a.txt" ++ "\")" ∧
      (log_activity ⟨BaselineDisk.missing, []⟩ "2024-01-01 00:00:00" "INFO" "msg" "a.txt").1.log =
        ([] : List String) ++ [log_line "2024-01-01 00:00:00" "INFO" "msg" "a.txt"] :=
  log_activity_empty_filename ⟨BaselineDisk.missing, []⟩
    "2024-01-01 00:00:00" "INFO" "msg" "a.txt" (by decide)

/-! The scan filter, characterised entry by entry. -/

theorem scanEntry_eq_some_iff {e : DirEntry} {n : String} {r : FileRecord} :
    scanEntry e = some (n, r) ↔
      e.resolved = some FileType.regular ∧ e.name = n ∧
        e.hashResult = some r.hash ∧ e.size = r.size ∧ e.mtime = r.modified := by
  obtain ⟨nm, sl, res, hres, sz, mt⟩ := e
  obtain ⟨rh, rs, rm⟩ := r
  cases res with
  | none => simp [scanEntry, os_path_isfile]
  | some t =>
    cases t with
    | regular =>
      cases hres with
      | none => simp [scanEntry, os_path_isfile]
      | some h =>
        simp [scanEntry, os_path_isfile, and_assoc]
    | directory => simp [scanEntry, os_path_isfile]
    | device => simp [scanEntry, os_path_isfile]

theorem scanEntry_name {e : DirEntry} {p : String × FileRecord}
    (h : scanEntry e = some p) : p.1 = e.name := by
  obtain ⟨a, b⟩ := p
  exact ((scanEntry_eq_some_iff.mp h).2.1).symm

/-- C4 counterexample: scan_files includes a record for a symbolic link whose
target is a regular file, because os.path.isfile follows symlinks; so a
snapshot record can correspond to a symbolic link. -/
theorem scan_includes_symlink_counterexample :
    (⟨"link.txt", true, some FileType.regular, some "deadbeef", 4,
        "2024-05-01 12:00:00"⟩ : DirEntry).isSymlink = true ∧
      scan_files ⟨true, [⟨"link.txt", true, some FileType.regular, some "deadbeef", 4,
          "2024-05-01 12:00:00"⟩]⟩ =
        [("link.txt", ⟨"deadbeef", 4, "2024-05-01 12:00:00"⟩)] :=
  ⟨rfl, rfl⟩

/-- C4 amended: a snapshot record exists exactly for the direct entries that
resolve to regular files (after following symlinks) and hash successfully;
subdirectories, device files and broken symlinks are excluded, but a
symlink whose target is a regular file is included. -/
theorem scan_files_resolved_regular_only (fs : Filesystem) (n : String) (r : FileRecord) :
    (n, r) ∈ scan_files fs ↔
      fs.secureFolderExists = true ∧
        ∃ e, e ∈ fs.entries ∧ e.resolved = some FileType.regular ∧
          e.name = n ∧ e.hashResult = some r.hash ∧
          e.size = r.size ∧ e.mtime = r.modified := by
  unfold scan_files
  by_cases hex : fs.secureFolderExists = true
  · rw [if_pos hex]
    simp only [List.mem_filterMap, hex, true_and]
    constructor
    · rintro ⟨e, he, hse⟩
      obtain ⟨h1, h2, h3, h4, h5⟩ := scanEntry_eq_some_iff.mp hse
      exact ⟨e, he, h1, h2, h3, h4, h5⟩
    · rintro ⟨e, he, h1, h2, h3, h4, h5⟩
      exact ⟨e, he, scanEntry_eq_some_iff.mpr ⟨h1, h2, h3, h4, h5⟩⟩
  · rw [if_neg hex]
    simp [hex]

/-- C5 counterexample: save_hash_db is a truncating write, not an atomic
replacement: the first on-disk state it passes through is an unparseable
file, and loading at that point (where a failed save stops) returns the
empty dict rather than the previously persisted baseline. -/
theorem save_not_atomic_counterexample :
    (save_hash_db_states [("new.txt", ⟨"h2", 2, "t2"⟩)]).head? =
        some BaselineDisk.corrupt ∧
      load_hash_db BaselineDisk.corrupt = [] ∧
      load_hash_db (BaselineDisk.valid [("old.txt", ⟨"h1", 1, "t1"⟩)]) =
        [("old.txt", ⟨"h1", 1, "t1"⟩)] ∧
      ([] : HashDict) ≠ [("old.txt", ⟨"h1", 1, "t1"⟩)] :=
  ⟨rfl, rfl, rfl, by decide⟩

/-- C5 amended: a completed save_hash_db makes load_hash_db return the new
snapshot, but the write truncates the file first: the intermediate on-disk
state is unparseable, and loading it yields the empty baseline — not the
previously persisted one — so a save that fails part-way loses the old
baseline. -/
theorem save_truncates_then_writes (db : HashDict) :
    load_hash_db (save_hash_db db) = db ∧
      save_hash_db_states db = [BaselineDisk.corrupt, save_hash_db db] ∧
      load_hash_db BaselineDisk.corrupt = [] :=
  ⟨rfl, rfl, rfl⟩

/-! Scanned names come from directory-entry names, which os.listdir yields
without duplicates. -/

theorem dictKeys_filterMap_scan_subset (l : List DirEntry) (n : String)
    (h : n ∈ dictKeys (l.filterMap scanEntry)) : n ∈ l.map DirEntry.name := by
  induction l with
  | nil => simp [dictKeys] at h
  | cons e rest ih =>
    rw [List.filterMap_cons] at h
    cases hse : scanEntry e with
    | none =>
      rw [hse] at h
      exact List.mem_cons_of_mem _ (ih h)
    | some p =>
      rw [hse] at h
      simp only [dictKeys, List.map_cons, List.mem_cons] at h
      rcases h with h1 | h1
      · rw [List.map_cons]
        exact List.mem_cons.mpr (Or.inl (h1.trans (scanEntry_name hse)))
      · exact List.mem_cons_of_mem _ (ih h1)

theorem dictKeys_filterMap_scan_nodup (l : List DirEntry)
    (h : (l.map DirEntry.name).Nodup) : (dictKeys (l.filterMap scanEntry)).Nodup := by
  induction l with
  | nil => simp [dictKeys]
  | cons e rest ih =>
    simp only [List.map_cons, List.nodup_cons] at h
    rw [List.filterMap_cons]
    cases hse : scanEntry e with
    | none => exact ih h.2
    | some p =>
      simp only [dictKeys, List.map_cons, List.nodup_cons]
      refine ⟨?_, ih h.2⟩
      intro hmem
      have hn := dictKeys_filterMap_scan_subset rest p.1 hmem
      rw [scanEntry_name hse] at hn
      exact h.1 hn

theorem dictKeys_scan_nodup (fs : Filesystem)
    (h : (fs.entries.map DirEntry.name).Nodup) :
    (dictKeys (scan_files fs)).Nodup := by
  unfold scan_files
  by_cases hex : fs.secureFolderExists = true
  · rw [if_pos hex]
    exact dictKeys_filterMap_scan_nodup _ h
  · rw [if_neg hex]
    simp [dictKeys]

/-- C6: create_baseline followed immediately by check_integrity on an
unchanged filesystem classifies every scanned file as safe and leaves
modified, new and deleted empty. -/
theorem baseline_then_check_all_safe (st : SystemState) (fs : Filesystem)
    (now now2 : String) (h : (fs.entries.map DirEntry.name).Nodup) :
    (check_integrity (create_baseline st fs now).1 fs now2).1.safe
        = dictKeys (scan_files fs) ∧
      (check_integrity (create_baseline st fs now).1 fs now2).1.modified = [] ∧
      (check_integrity (create_baseline st fs now).1 fs now2).1.new = [] ∧
      (check_integrity (create_baseline st fs now).1 fs now2).1.deleted = [] := by
  have hnd := dictKeys_scan_nodup fs h
  have hload : load_hash_db (create_baseline st fs now).1.baselineDisk = scan_files fs := rfl
  rw [check_integrity_eq, hload]
  have hself : ∀ p : String × FileRecord, p ∈ scan_files fs →
      dictLookup p.1 (scan_files fs) = some p.2 := by
    intro p hp
    exact dictLookup_eq_some_of_mem hnd (Prod.mk.eta.symm ▸ hp)
  refine ⟨?_, ?_, ?_, ?_⟩
  · show ((scan_files fs).filter (isSafeEntry (scan_files fs))).map Prod.fst
        = dictKeys (scan_files fs)
    have hall : (scan_files fs).filter (isSafeEntry (scan_files fs)) = scan_files fs :=
      List.filter_eq_self.mpr (fun p hp => isSafeEntry_iff.mpr ⟨p.2, hself p hp, rfl⟩)
    rw [hall]
    rfl
  · show ((scan_files fs).filter (isModifiedEntry (scan_files fs))).map Prod.fst = []
    have : (scan_files fs).filter (isModifiedEntry (scan_files fs)) = [] := by
      refine List.filter_eq_nil_iff.mpr ?_
      intro p hp hm
      obtain ⟨b, hb, hne⟩ := isModifiedEntry_iff.mp hm
      obtain rfl := Option.some.inj ((hself p hp).symm.trans hb)
      exact hne rfl
    rw [this]
    rfl
  · show ((scan_files fs).filter (isNewEntry (scan_files fs))).map Prod.fst = []
    have : (scan_files fs).filter (isNewEntry (scan_files fs)) = [] := by
      refine List.filter_eq_nil_iff.mpr ?_
      intro p hp hm
      have hnone := isNewEntry_iff.mp hm
      rw [hself p hp] at hnone
      cases hnone
    rw [this]
    rfl
  · show (dictKeys (scan_files fs)).filter
        (fun n => !(dictContains n (scan_files fs))) = []
    refine List.filter_eq_nil_iff.mpr ?_
    intro n hn hcontra
    have hc : dictContains n (scan_files fs) = true := dictLookup_isSome_iff.mpr hn
    rw [hc] at hcontra
    cases hcontra

theorem baseline_then_check_all_safe_witness :
    (check_integrity (create_baseline ⟨BaselineDisk.missing, []⟩
          ⟨true, [⟨"a.txt", false, some FileType.regular, some "h1", 3, "t0"⟩]⟩ "t1").1
        ⟨true, [⟨"a.txt", false, some FileType.regular, some "h1", 3, "t0"⟩]⟩ "t2").1.safe
      = dictKeys (scan_files
          ⟨true, [⟨"a.txt", false, some FileType.regular, some "h1", 3, "t0"⟩]⟩) ∧
    (check_integrity (create_baseline ⟨BaselineDisk.missing, []⟩
          ⟨true, [⟨"a.txt", false, some FileType.regular, some "h1", 3, "t0"⟩]⟩ "t1").1
        ⟨true, [⟨"a.txt", false, some FileType.regular, some "h1", 3, "t0"⟩]⟩ "t2").1.modified
      = [] ∧
    (check_integrity (create_baseline ⟨BaselineDisk.missing, []⟩
          ⟨true, [⟨"a.txt", false, some FileType.regular, some "h1", 3, "t0"⟩]⟩ "t1").1
        ⟨true, [⟨"a.txt", false, some FileType.regular, some "h1", 3, "t0"⟩]⟩ "t2").1.new
      = [] ∧
    (check_integrity (create_baseline ⟨BaselineDisk.missing, []⟩
          ⟨true, [⟨"a.txt", false, some FileType.regular, some "h1", 3, "t0"⟩]⟩ "t1").1
        ⟨true, [⟨"a.txt", false, some FileType.regular, some "h1", 3, "t0"⟩]⟩ "t2").1.deleted
      = [] :=
  baseline_then_check_all_safe ⟨BaselineDisk.missing, []⟩
    ⟨true, [⟨"a.txt", false, some FileType.regular, some "h1", 3, "t0"⟩]⟩
    "t1" "t2" (by decide)
